import Mathlib

/-!
Verification of the `arduino_sketch.ino` control loop (cycle scheduler +
signal reporter).  The sketch is a single cooperative loop over three
global variables; we embed it as a pure step function on an explicit
state record.  C `unsigned long` arithmetic is modelled as `Nat` taken
modulo 2^32, and the C `int` that receives the unsigned difference is
modelled as the 16-bit signed integer of the AVR targets of Arduino
sketches (the value is reduced modulo 2^16 and read as a signed number).
Digital pin reads are `Bool` (`HIGH` = `true`, `LOW` = `false`), and the
`int isMeatbagTranscribing` flag, which the sketch only ever sets to 0
or 1, is modelled as a `Bool` (`1` = `true`).  Serial output is the list
of decimal digits printed (every `Serial.print` in the sketch prints a
single digit in `{0,1,2,3,4}`).
-/

namespace ArtisinalRs232

/-- `int MSG_MEATBAG_DEACTIVATE = 2;` -/
def MSG_MEATBAG_DEACTIVATE : Nat := 2

/-- `int MSG_MEATBAG_ACTIVATE = 3;` -/
def MSG_MEATBAG_ACTIVATE : Nat := 3

/-- `int MSG_EVENT_HEARTBEAT = 4;` -/
def MSG_EVENT_HEARTBEAT : Nat := 4

/-- `int MSG_EVENT_PROBE = 5;` -/
def MSG_EVENT_PROBE : Nat := 5

/-- `int MEATBAG_BAUD = 4;` -/
def MEATBAG_BAUD : Int := 4

/-- `int CYCLE_TIMESPAN = 1000 / MEATBAG_BAUD;` -/
def CYCLE_TIMESPAN : Int := 1000 / MEATBAG_BAUD

/-- `int EVENT_TIMESPAN = CYCLE_TIMESPAN / 2;` (= 125) -/
def EVENT_TIMESPAN : Int := CYCLE_TIMESPAN / 2

/-- Modulus of the C `unsigned long` (32-bit) used by `millis()` and the
timestamp variables. -/
def ULONG_MOD : Nat := 4294967296

/-- C unsigned-long subtraction `a - b`: both operands reduced modulo
2^32, difference taken modulo 2^32. -/
def ulSub (a b : Nat) : Nat :=
  (a % ULONG_MOD + (ULONG_MOD - b % ULONG_MOD)) % ULONG_MOD

/-- Conversion of an `unsigned long` value to the sketch's `int`
(16-bit on AVR): keep the low 16 bits and read them as a signed
integer. -/
def intOfULong (n : Nat) : Int :=
  if n % 65536 < 32768 then (n % 65536 : Nat) else (n % 65536 : Nat) - 65536

/-- The numeric value returned by `digitalRead`: `HIGH` = 1, `LOW` = 0. -/
def digitalVal (b : Bool) : Nat := if b then 1 else 0

/-- The three global variables of the sketch. -/
structure SketchState where
  /-- `int isMeatbagTranscribing = 0;` — only ever holds 0 or 1, modelled
  as a `Bool` (1 = `true`). -/
  isMeatbagTranscribing : Bool
  /-- `unsigned long previousTimestamp = 0;` -/
  previousTimestamp : Nat
  /-- `unsigned long previousEvent = MSG_EVENT_PROBE;` -/
  previousEvent : Nat
deriving DecidableEq, Repr

/-- The initial values of the globals, as declared at the top of the
sketch. -/
def initState : SketchState :=
  { isMeatbagTranscribing := false
    previousTimestamp := 0
    previousEvent := MSG_EVENT_PROBE }

/-- `int timeElapsed = currentTimestamp - previousTimestamp;` — the
unsigned-long difference converted to `int`. -/
def timeElapsed (s : SketchState) (currentTimestamp : Nat) : Int :=
  intOfULong (ulSub currentTimestamp s.previousTimestamp)

/-- The two timing branches at the top of `loop()` (the `if` /
`else if` pair), given the current `millis()` reading and the value on
`PIN_MEATBAG_IN`.  Returns the updated state and the digits printed. -/
def schedStep (s : SketchState) (currentTimestamp : Nat) (pinIn : Bool) :
    SketchState × List Nat :=
  if timeElapsed s currentTimestamp > EVENT_TIMESPAN ∧
      s.previousEvent = MSG_EVENT_PROBE then
    ({ s with previousTimestamp := currentTimestamp % ULONG_MOD
              previousEvent := MSG_EVENT_HEARTBEAT },
     [MSG_EVENT_HEARTBEAT])
  else if timeElapsed s currentTimestamp > EVENT_TIMESPAN ∧
      s.previousEvent = MSG_EVENT_HEARTBEAT ∧
      s.isMeatbagTranscribing = true ∧
      timeElapsed s currentTimestamp > EVENT_TIMESPAN then
    ({ s with previousTimestamp := currentTimestamp % ULONG_MOD
              previousEvent := MSG_EVENT_PROBE },
     [digitalVal pinIn])
  else
    (s, [])

/-- The activation check at the bottom of `loop()`, given the value read
from `PIN_MEATBAG_ACTIVATE`. -/
def activationStep (s : SketchState) (activate : Bool) :
    SketchState × List Nat :=
  if s.isMeatbagTranscribing = true ∧ activate = false then
    ({ s with isMeatbagTranscribing := false }, [MSG_MEATBAG_DEACTIVATE])
  else if s.isMeatbagTranscribing = false ∧ activate = true then
    ({ s with isMeatbagTranscribing := true }, [MSG_MEATBAG_ACTIVATE])
  else
    (s, [])

/-- One execution of `loop()`: the two timing branches followed by the
activation check.  `currentTimestamp` is the `millis()` reading of this
poll; `pinIn` and `pinActivate` are the two digital reads. -/
def loopPoll (s : SketchState) (currentTimestamp : Nat)
    (pinIn pinActivate : Bool) : SketchState × List Nat :=
  let r1 := schedStep s currentTimestamp pinIn
  let r2 := activationStep r1.1 pinActivate
  (r2.1, r1.2 ++ r2.2)

/-- The externally supplied values of one poll: the `millis()` reading
and the two pin levels. -/
structure PollInput where
  clock : Nat
  pinIn : Bool
  pinActivate : Bool
deriving DecidableEq, Repr

/-- Run `loop()` once per input, threading the state and concatenating
the printed digits. -/
def applyPolls (s : SketchState) : List PollInput → SketchState × List Nat
  | [] => (s, [])
  | i :: is =>
    let r1 := loopPoll s i.clock i.pinIn i.pinActivate
    let r2 := applyPolls r1.1 is
    (r2.1, r1.2 ++ r2.2)

/-! ### Observations on the emitted wire and on runs -/

/-- Wire digits produced by the two timing branches: the heartbeat code 4
and the probe bits 0/1. -/
def isSchedDigit (d : Nat) : Bool :=
  d == MSG_EVENT_HEARTBEAT || d == 0 || d == 1

/-- Wire digits produced by the activation check: 2 and 3. -/
def isActDigit (d : Nat) : Bool :=
  d == MSG_MEATBAG_DEACTIVATE || d == MSG_MEATBAG_ACTIVATE

/-- Strict alternation of the scheduler's wire digits, starting from the
phase marker `prev` (4 after a heartbeat, 5 after a probe): after a
probe the next scheduler digit must be a heartbeat, and after a
heartbeat the next must be a probe bit. -/
def schedAlt : Nat → List Nat → Bool
  | _, [] => true
  | prev, d :: r =>
    if prev == MSG_EVENT_PROBE then
      (d == MSG_EVENT_HEARTBEAT) && schedAlt MSG_EVENT_HEARTBEAT r
    else
      (d == 0 || d == 1) && schedAlt MSG_EVENT_PROBE r

/-- Strict alternation of the activation digits given the current flag:
with the flag down the next activation digit must be ACTIVATE (3), with
it up the next must be DEACTIVATE (2). -/
def actAlt : Bool → List Nat → Bool
  | _, [] => true
  | false, d :: r => (d == MSG_MEATBAG_ACTIVATE) && actAlt true r
  | true, d :: r => (d == MSG_MEATBAG_DEACTIVATE) && actAlt false r

/-- The flag value implied by the most recent activation digit in `l`
(`f` when `l` has none): `true` after a 3, `false` after a 2. -/
def lastAct (f : Bool) : List Nat → Bool
  | [] => f
  | d :: r =>
    lastAct (if d == MSG_MEATBAG_ACTIVATE then true
             else if d == MSG_MEATBAG_DEACTIVATE then false else f) r

/-- Every pair of adjacent entries is more than `EVENT_TIMESPAN` apart. -/
def gapsOver : List Nat → Bool
  | a :: b :: r => decide (a + EVENT_TIMESPAN.toNat < b) && gapsOver (b :: r)
  | _ => true

/-- The list is strictly increasing. -/
def strictIncr : List Nat → Bool
  | a :: b :: r => decide (a < b) && strictIncr (b :: r)
  | _ => true

/-- `p` is a lower bound threaded along a non-decreasing list. -/
def nondecFrom (p : Nat) : List Nat → Bool
  | [] => true
  | c :: r => decide (p ≤ c) && nondecFrom c r

/-- Clocks of the polls at which either timing branch fires during a
run. -/
def transClocks (s : SketchState) : List PollInput → List Nat
  | [] => []
  | i :: is =>
    (if (schedStep s i.clock i.pinIn).2 = [] then [] else [i.clock]) ++
      transClocks (loopPoll s i.clock i.pinIn i.pinActivate).1 is

/-- Clocks of the polls at which the heartbeat branch fires during a
run. -/
def hbClocks (s : SketchState) : List PollInput → List Nat
  | [] => []
  | i :: is =>
    (if (schedStep s i.clock i.pinIn).2 = [MSG_EVENT_HEARTBEAT] then [i.clock]
     else []) ++
      hbClocks (loopPoll s i.clock i.pinIn i.pinActivate).1 is

/-! ### Events and the wire grammar -/

/-- The discrete events of the protocol. -/
inductive Event
  | heartbeat
  | probe (bit : Bool)
  | activate
  | deactivate
deriving DecidableEq, Repr

/-- The digits each event actually puts on the wire, as printed by the
sketch: `Serial.print(MSG_EVENT_HEARTBEAT)`, `Serial.print(value)`,
`Serial.print(MSG_MEATBAG_ACTIVATE)`, `Serial.print(MSG_MEATBAG_DEACTIVATE)`. -/
def serializeEvent : Event → List Nat
  | .heartbeat => [MSG_EVENT_HEARTBEAT]
  | .probe b => [digitalVal b]
  | .activate => [MSG_MEATBAG_ACTIVATE]
  | .deactivate => [MSG_MEATBAG_DEACTIVATE]

/-- Concatenated wire bytes of a sequence of events, as the sketch
prints them. -/
def wireOf : List Event → List Nat
  | [] => []
  | e :: r => serializeEvent e ++ wireOf r

/-- Decoder for the wire format the sketch actually emits: every event
occupies exactly one digit, with 0/1 the probe bits, 2 deactivate, 3
activate and 4 heartbeat; anything else (in particular a 5) is not a
valid emitted stream. -/
def decodeWire : List Nat → Option (List Event)
  | [] => some []
  | 0 :: r => (decodeWire r).map (Event.probe false :: ·)
  | 1 :: r => (decodeWire r).map (Event.probe true :: ·)
  | 2 :: r => (decodeWire r).map (Event.deactivate :: ·)
  | 3 :: r => (decodeWire r).map (Event.activate :: ·)
  | 4 :: r => (decodeWire r).map (Event.heartbeat :: ·)
  | _ :: _ => none

/-- Modelled from the spec: the documented wire grammar of §6/§8, in
which 2, 3 and 4 are standalone events and a probe appears as a `5`
followed immediately by one `0`/`1` bit; `0` and `1` are reserved for
that position and are not standalone messages, so any other shape fails
to decode. -/
def specDecodeWire : List Nat → Option (List Event)
  | [] => some []
  | 5 :: 0 :: r => (specDecodeWire r).map (Event.probe false :: ·)
  | 5 :: 1 :: r => (specDecodeWire r).map (Event.probe true :: ·)
  | 2 :: r => (specDecodeWire r).map (Event.deactivate :: ·)
  | 3 :: r => (specDecodeWire r).map (Event.activate :: ·)
  | 4 :: r => (specDecodeWire r).map (Event.heartbeat :: ·)
  | _ :: _ => none

/-! ### The spec's phase vocabulary -/

/-- The two phase names used by the spec. -/
inductive Phase
  | HEARTBEAT_PENDING
  | PROBE_PENDING
deriving DecidableEq, Repr

/-- Modelled from the spec: §3 defines HEARTBEAT_PENDING as "last event
was PROBE, next due is HEARTBEAT" and PROBE_PENDING as "last event was
HEARTBEAT, next due is PROBE"; the sketch records the last event in
`previousEvent`, so the phase name of a state is determined by that
field. -/
def specPhaseOfPreviousEvent (e : Nat) : Phase :=
  if e = MSG_EVENT_HEARTBEAT then Phase.PROBE_PENDING
  else Phase.HEARTBEAT_PENDING

/-- Concrete poll sequence of the spec's §8 scenario: clocks
[0, 130, 260, 390], activation pin constant HIGH, signal pin constant
1. -/
def scenarioHigh : List PollInput :=
  [⟨0, true, true⟩, ⟨130, true, true⟩, ⟨260, true, true⟩, ⟨390, true, true⟩]

/-- Concrete poll sequence with both pins constantly LOW: clocks
[0, 130, 260, 390], activation pin never HIGH. -/
def scenarioLow : List PollInput :=
  [⟨0, false, false⟩, ⟨130, false, false⟩, ⟨260, false, false⟩,
   ⟨390, false, false⟩]

/-! ### Helper lemmas about the step functions -/

lemma schedStep_spec (s : SketchState) (c : Nat) (pin : Bool) :
    (timeElapsed s c > EVENT_TIMESPAN ∧
      s.previousEvent = MSG_EVENT_PROBE ∧
      schedStep s c pin =
        ({ s with previousTimestamp := c % ULONG_MOD
                  previousEvent := MSG_EVENT_HEARTBEAT },
         [MSG_EVENT_HEARTBEAT])) ∨
    (timeElapsed s c > EVENT_TIMESPAN ∧
      s.previousEvent = MSG_EVENT_HEARTBEAT ∧
      s.isMeatbagTranscribing = true ∧
      schedStep s c pin =
        ({ s with previousTimestamp := c % ULONG_MOD
                  previousEvent := MSG_EVENT_PROBE },
         [digitalVal pin])) ∨
    ((¬ timeElapsed s c > EVENT_TIMESPAN ∨
        (s.previousEvent ≠ MSG_EVENT_PROBE ∧
          (s.previousEvent ≠ MSG_EVENT_HEARTBEAT ∨
            s.isMeatbagTranscribing = false))) ∧
      schedStep s c pin = (s, [])) := by
  by_cases h1 : timeElapsed s c > EVENT_TIMESPAN ∧
      s.previousEvent = MSG_EVENT_PROBE
  · refine Or.inl ⟨h1.1, h1.2, ?_⟩
    unfold schedStep
    rw [if_pos h1]
  by_cases h2 : timeElapsed s c > EVENT_TIMESPAN ∧
      s.previousEvent = MSG_EVENT_HEARTBEAT ∧ s.isMeatbagTranscribing = true ∧
      timeElapsed s c > EVENT_TIMESPAN
  · refine Or.inr (Or.inl ⟨h2.1, h2.2.1, h2.2.2.1, ?_⟩)
    unfold schedStep
    rw [if_neg h1, if_pos h2]
  · refine Or.inr (Or.inr ⟨?_, ?_⟩)
    · by_cases he : timeElapsed s c > EVENT_TIMESPAN
      · right
        constructor
        · intro hpe
          exact h1 ⟨he, hpe⟩
        · by_cases hhb : s.previousEvent = MSG_EVENT_HEARTBEAT
          · right
            cases hflag : s.isMeatbagTranscribing with
            | false => rfl
            | true => exact absurd ⟨he, hhb, hflag, he⟩ h2
          · exact Or.inl hhb
      · exact Or.inl he
    · unfold schedStep
      rw [if_neg h1, if_neg h2]

lemma activationStep_spec (s : SketchState) (a : Bool) :
    (s.isMeatbagTranscribing = true ∧ a = false ∧
      activationStep s a =
        ({ s with isMeatbagTranscribing := false }, [MSG_MEATBAG_DEACTIVATE])) ∨
    (s.isMeatbagTranscribing = false ∧ a = true ∧
      activationStep s a =
        ({ s with isMeatbagTranscribing := true }, [MSG_MEATBAG_ACTIVATE])) ∨
    (s.isMeatbagTranscribing = a ∧ activationStep s a = (s, [])) := by
  cases hf : s.isMeatbagTranscribing <;> cases a
  · exact Or.inr (Or.inr ⟨rfl, by simp [activationStep, hf]⟩)
  · exact Or.inr (Or.inl ⟨rfl, rfl, by simp [activationStep, hf]⟩)
  · exact Or.inl ⟨rfl, rfl, by simp [activationStep, hf]⟩
  · exact Or.inr (Or.inr ⟨rfl, by simp [activationStep, hf]⟩)

lemma schedStep_flag (s : SketchState) (c : Nat) (pin : Bool) :
    (schedStep s c pin).1.isMeatbagTranscribing = s.isMeatbagTranscribing := by
  rcases schedStep_spec s c pin with ⟨_, _, h⟩ | ⟨_, _, _, h⟩ | ⟨_, h⟩ <;> rw [h]

lemma activationStep_ts (s : SketchState) (a : Bool) :
    (activationStep s a).1.previousTimestamp = s.previousTimestamp := by
  rcases activationStep_spec s a with ⟨_, _, h⟩ | ⟨_, _, h⟩ | ⟨_, h⟩ <;> rw [h]

lemma activationStep_ev (s : SketchState) (a : Bool) :
    (activationStep s a).1.previousEvent = s.previousEvent := by
  rcases activationStep_spec s a with ⟨_, _, h⟩ | ⟨_, _, h⟩ | ⟨_, h⟩ <;> rw [h]

lemma schedStep_actFilter (s : SketchState) (c : Nat) (pin : Bool) :
    ((schedStep s c pin).2).filter isActDigit = [] := by
  rcases schedStep_spec s c pin with ⟨_, _, h⟩ | ⟨_, _, _, h⟩ | ⟨_, h⟩ <;> rw [h]
  · rfl
  · cases pin <;> rfl
  · rfl

lemma schedStep_schedFilter (s : SketchState) (c : Nat) (pin : Bool) :
    ((schedStep s c pin).2).filter isSchedDigit = (schedStep s c pin).2 := by
  rcases schedStep_spec s c pin with ⟨_, _, h⟩ | ⟨_, _, _, h⟩ | ⟨_, h⟩ <;> rw [h]
  · rfl
  · cases pin <;> rfl
  · rfl

lemma activationStep_schedFilter (s : SketchState) (a : Bool) :
    ((activationStep s a).2).filter isSchedDigit = [] := by
  rcases activationStep_spec s a with ⟨_, _, h⟩ | ⟨_, _, h⟩ | ⟨_, h⟩ <;> rw [h] <;> rfl

lemma activationStep_actFilter (s : SketchState) (a : Bool) :
    ((activationStep s a).2).filter isActDigit = (activationStep s a).2 := by
  rcases activationStep_spec s a with ⟨_, _, h⟩ | ⟨_, _, h⟩ | ⟨_, h⟩ <;> rw [h] <;> rfl

lemma loopPoll_eq (s : SketchState) (c : Nat) (pin pact : Bool) :
    loopPoll s c pin pact =
      ((activationStep (schedStep s c pin).1 pact).1,
        (schedStep s c pin).2 ++ (activationStep (schedStep s c pin).1 pact).2) :=
  rfl

lemma applyPolls_cons (s : SketchState) (i : PollInput) (is : List PollInput) :
    applyPolls s (i :: is) =
      ((applyPolls (loopPoll s i.clock i.pinIn i.pinActivate).1 is).1,
        (loopPoll s i.clock i.pinIn i.pinActivate).2 ++
          (applyPolls (loopPoll s i.clock i.pinIn i.pinActivate).1 is).2) :=
  rfl

/-! ### Arithmetic lemmas -/

lemma EVENT_TIMESPAN_eq : EVENT_TIMESPAN = 125 := by decide

lemma EVENT_TIMESPAN_toNat : EVENT_TIMESPAN.toNat = 125 := by decide

lemma ulSub_of_le (p c : Nat) (hp : p < ULONG_MOD) (hc : c < ULONG_MOD)
    (hpc : p ≤ c) : ulSub c p = c - p := by
  simp only [ulSub, ULONG_MOD] at *
  omega

lemma intOfULong_gt (n : Nat) (h : intOfULong n > EVENT_TIMESPAN) : 125 < n := by
  rw [EVENT_TIMESPAN_eq] at h
  unfold intOfULong at h
  split at h <;> omega

lemma timeElapsed_fire (s : SketchState) (c : Nat)
    (hp : s.previousTimestamp < ULONG_MOD) (hc : c < ULONG_MOD)
    (hpc : s.previousTimestamp ≤ c)
    (h : timeElapsed s c > EVENT_TIMESPAN) :
    s.previousTimestamp + EVENT_TIMESPAN.toNat < c := by
  rw [EVENT_TIMESPAN_toNat]
  unfold timeElapsed at h
  rw [ulSub_of_le s.previousTimestamp c hp hc hpc] at h
  have := intOfULong_gt _ h
  omega

lemma intOfULong_small (n : Nat) (h : n < 32768) : intOfULong n = (n : Int) := by
  unfold intOfULong
  rw [Nat.mod_eq_of_lt (by omega)]
  rw [if_pos h]

/-! ### Lemmas about the list observations -/

lemma nondecFrom_weaken (q p : Nat) (l : List Nat) (hqp : q ≤ p)
    (h : nondecFrom p l = true) : nondecFrom q l = true := by
  cases l with
  | nil => rfl
  | cons c r =>
    simp only [nondecFrom, Bool.and_eq_true, decide_eq_true_eq] at h ⊢
    exact ⟨le_trans hqp h.1, h.2⟩

lemma nondecFrom_of_strictIncr :
    ∀ (l : List Nat) (p : Nat), strictIncr (p :: l) = true →
      nondecFrom p l = true := by
  intro l
  induction l with
  | nil => intro p _; rfl
  | cons c r ih =>
    intro p h
    simp only [strictIncr, Bool.and_eq_true, decide_eq_true_eq] at h
    simp only [nondecFrom, Bool.and_eq_true, decide_eq_true_eq]
    exact ⟨le_of_lt h.1, ih c h.2⟩

lemma gapsOver_tail (a : Nat) (l : List Nat) (h : gapsOver (a :: l) = true) :
    gapsOver l = true := by
  cases l with
  | nil => rfl
  | cons b r =>
    have h' := (Bool.and_eq_true _ _).mp h
    exact h'.2

lemma gapsOver_skip (a b : Nat) (l : List Nat)
    (h : gapsOver (a :: b :: l) = true) : gapsOver (a :: l) = true := by
  cases l with
  | nil => rfl
  | cons c r =>
    have h' := (Bool.and_eq_true _ _).mp h
    have h'' := (Bool.and_eq_true _ _).mp h'.2
    have h1 : a + EVENT_TIMESPAN.toNat < b := of_decide_eq_true h'.1
    have h2 : b + EVENT_TIMESPAN.toNat < c := of_decide_eq_true h''.1
    exact (Bool.and_eq_true _ _).mpr ⟨decide_eq_true (by omega), h''.2⟩

lemma gapsOver_cons_mono :
    ∀ {l' l : List Nat}, List.Sublist l' l → ∀ a : Nat,
      gapsOver (a :: l) = true → gapsOver (a :: l') = true := by
  intro l' l h
  induction h with
  | slnil => intro a hg; exact hg
  | cons b hsub ih =>
    intro a hg
    exact ih a (gapsOver_skip a b _ hg)
  | cons₂ b hsub ih =>
    intro a hg
    have h' := (Bool.and_eq_true _ _).mp hg
    exact (Bool.and_eq_true _ _).mpr ⟨h'.1, ih b h'.2⟩

lemma gapsOver_sublist {l' l : List Nat} (h : List.Sublist l' l)
    (hg : gapsOver l = true) : gapsOver l' = true := by
  induction h with
  | slnil => rfl
  | cons b hsub ih => exact ih (gapsOver_tail b _ hg)
  | cons₂ b hsub ih => exact gapsOver_cons_mono hsub b hg

/-! ### Run-level lemmas about firing and timestamps -/

lemma schedStep_noFire (s : SketchState) (c : Nat) (pin : Bool)
    (h : (schedStep s c pin).2 = []) : schedStep s c pin = (s, []) := by
  rcases schedStep_spec s c pin with ⟨_, _, heq⟩ | ⟨_, _, _, heq⟩ | ⟨_, heq⟩
  · rw [heq] at h
    exact absurd h (by simp)
  · rw [heq] at h
    exact absurd h (by simp)
  · exact heq

lemma schedStep_fire (s : SketchState) (c : Nat) (pin : Bool)
    (h : ¬ (schedStep s c pin).2 = []) :
    timeElapsed s c > EVENT_TIMESPAN ∧
      (schedStep s c pin).1.previousTimestamp = c % ULONG_MOD := by
  rcases schedStep_spec s c pin with ⟨h1, _, heq⟩ | ⟨h1, _, _, heq⟩ | ⟨_, heq⟩
  · exact ⟨h1, by rw [heq]⟩
  · exact ⟨h1, by rw [heq]⟩
  · exact absurd (by rw [heq]) h

lemma loopPoll_state (s : SketchState) (c : Nat) (pin pact : Bool) :
    (loopPoll s c pin pact).1 = (activationStep (schedStep s c pin).1 pact).1 :=
  rfl

lemma loopPoll_ts (s : SketchState) (c : Nat) (pin pact : Bool) :
    (loopPoll s c pin pact).1.previousTimestamp =
      (schedStep s c pin).1.previousTimestamp := by
  rw [loopPoll_state, activationStep_ts]

lemma loopPoll_ev (s : SketchState) (c : Nat) (pin pact : Bool) :
    (loopPoll s c pin pact).1.previousEvent =
      (schedStep s c pin).1.previousEvent := by
  rw [loopPoll_state, activationStep_ev]

lemma transClocks_gaps :
    ∀ (l : List PollInput) (s : SketchState),
      s.previousTimestamp < ULONG_MOD →
      nondecFrom s.previousTimestamp (l.map PollInput.clock) = true →
      (∀ i ∈ l, i.clock < ULONG_MOD) →
      gapsOver (s.previousTimestamp :: transClocks s l) = true := by
  intro l
  induction l with
  | nil => intro s _ _ _; rfl
  | cons i is ih =>
    intro s hp hnd hb
    have hnd' := (Bool.and_eq_true _ _).mp hnd
    have hpc : s.previousTimestamp ≤ i.clock := of_decide_eq_true hnd'.1
    have hc : i.clock < ULONG_MOD := hb i (by simp)
    have hbis : ∀ j ∈ is, j.clock < ULONG_MOD := fun j hj => hb j (by simp [hj])
    simp only [transClocks]
    by_cases hf : (schedStep s i.clock i.pinIn).2 = []
    · have heq := schedStep_noFire s i.clock i.pinIn hf
      have hts : (loopPoll s i.clock i.pinIn i.pinActivate).1.previousTimestamp =
          s.previousTimestamp := by
        rw [loopPoll_ts, heq]
      rw [if_pos hf, List.nil_append]
      have h2 := ih (loopPoll s i.clock i.pinIn i.pinActivate).1
        (by rw [hts]; exact hp)
        (by rw [hts]; exact nondecFrom_weaken _ _ _ hpc hnd'.2) hbis
      rw [hts] at h2
      exact h2
    · have hfire := schedStep_fire s i.clock i.pinIn hf
      have hgap : s.previousTimestamp + EVENT_TIMESPAN.toNat < i.clock :=
        timeElapsed_fire s i.clock hp hc hpc hfire.1
      have hts : (loopPoll s i.clock i.pinIn i.pinActivate).1.previousTimestamp =
          i.clock := by
        rw [loopPoll_ts, hfire.2, Nat.mod_eq_of_lt hc]
      rw [if_neg hf, List.cons_append, List.nil_append]
      refine (Bool.and_eq_true _ _).mpr ⟨decide_eq_true hgap, ?_⟩
      have h2 := ih (loopPoll s i.clock i.pinIn i.pinActivate).1
        (by rw [hts]; exact hc) (by rw [hts]; exact hnd'.2) hbis
      rw [hts] at h2
      exact h2

lemma hbClocks_sublist :
    ∀ (l : List PollInput) (s : SketchState),
      List.Sublist (hbClocks s l) (transClocks s l) := by
  intro l
  induction l with
  | nil => intro s; exact List.Sublist.slnil
  | cons i is ih =>
    intro s
    simp only [hbClocks, transClocks]
    by_cases hf : (schedStep s i.clock i.pinIn).2 = []
    · rw [if_pos hf, if_neg (by rw [hf]; simp), List.nil_append, List.nil_append]
      exact ih _
    · rw [if_neg hf]
      by_cases hhb : (schedStep s i.clock i.pinIn).2 = [MSG_EVENT_HEARTBEAT]
      · rw [if_pos hhb, List.cons_append, List.nil_append, List.cons_append,
          List.nil_append]
        exact List.Sublist.cons₂ _ (ih _)
      · rw [if_neg hhb, List.nil_append, List.cons_append, List.nil_append]
        exact List.Sublist.cons _ (ih _)

lemma nondecFrom_zero_of_strictIncr (l : List Nat) (h : strictIncr l = true) :
    nondecFrom 0 l = true := by
  cases l with
  | nil => rfl
  | cons c r =>
    exact (Bool.and_eq_true _ _).mpr
      ⟨decide_eq_true (Nat.zero_le c), nondecFrom_of_strictIncr r c h⟩

/-! ### Claim theorems -/

/-- C8: for every poll sequence whose `millis()` readings are strictly
increasing (within the 32-bit range of `millis()`), any two consecutive
heartbeat emissions are separated by strictly more than `EVENT_TIMESPAN`
milliseconds of clock time, and `EVENT_TIMESPAN` is 125 ms (since
`MEATBAG_BAUD = 4`): heartbeats are never emitted more frequently than
once per `EVENT_TIMESPAN`. -/
theorem heartbeat_min_separation (l : List PollInput)
    (hmono : strictIncr (l.map PollInput.clock) = true)
    (hclock : ∀ i ∈ l, i.clock < ULONG_MOD) :
    gapsOver (hbClocks initState l) = true ∧ EVENT_TIMESPAN = 125 := by
  constructor
  · have hchain :
        gapsOver (initState.previousTimestamp :: transClocks initState l) = true :=
      transClocks_gaps l initState (by decide)
        (nondecFrom_zero_of_strictIncr _ hmono) hclock
    exact gapsOver_sublist
      (List.Sublist.cons _ (hbClocks_sublist l initState)) hchain
  · decide

/-- Witness for C8 at the concrete scenario run. -/
theorem heartbeat_min_separation_witness :
    strictIncr (scenarioHigh.map PollInput.clock) = true ∧
    (∀ i ∈ scenarioHigh, i.clock < ULONG_MOD) ∧
    (gapsOver (hbClocks initState scenarioHigh) = true ∧ EVENT_TIMESPAN = 125) :=
  ⟨by decide, by decide,
    heartbeat_min_separation scenarioHigh (by decide) (by decide)⟩

/-- C9: the elapsed time used by the scheduler guards is the wrapping
unsigned difference between the current clock and the stored timestamp:
when the true elapsed interval `d` is genuinely small (below 2^15, the
positive range of the AVR `int`), the computed `timeElapsed` equals `d`
exactly — even when the `millis()` counter wraps around between the two
readings — so the comparison against `EVENT_TIMESPAN` behaves as on the
true elapsed time, with no special wraparound handling. -/
theorem elapsed_wraparound (s : SketchState) (d : Nat)
    (hp : s.previousTimestamp < ULONG_MOD) (hd : d < 32768) :
    ulSub ((s.previousTimestamp + d) % ULONG_MOD) s.previousTimestamp = d ∧
    timeElapsed s ((s.previousTimestamp + d) % ULONG_MOD) = (d : Int) ∧
    (timeElapsed s ((s.previousTimestamp + d) % ULONG_MOD) > EVENT_TIMESPAN ↔
      125 < d) := by
  have hsub :
      ulSub ((s.previousTimestamp + d) % ULONG_MOD) s.previousTimestamp = d := by
    simp only [ulSub, ULONG_MOD] at *
    omega
  have hval : timeElapsed s ((s.previousTimestamp + d) % ULONG_MOD) = (d : Int) := by
    unfold timeElapsed
    rw [hsub]
    exact intOfULong_small d hd
  refine ⟨hsub, hval, ?_⟩
  rw [hval, EVENT_TIMESPAN_eq]
  constructor
  · intro h
    exact_mod_cast h
  · intro h
    exact_mod_cast h

/-- Witness for C9 at a wrapping clock: the stored timestamp is 50 ticks
before the 2^32 wrap and the current reading is 80, yet the computed
elapsed time is the true 130 ms. -/
theorem elapsed_wraparound_witness :
    (4294967246 : Nat) < ULONG_MOD ∧ (130 : Nat) < 32768 ∧
    (ulSub ((4294967246 + 130) % ULONG_MOD) 4294967246 = 130 ∧
     timeElapsed ⟨false, 4294967246, MSG_EVENT_PROBE⟩
        ((4294967246 + 130) % ULONG_MOD) = (130 : Int) ∧
     (timeElapsed ⟨false, 4294967246, MSG_EVENT_PROBE⟩
        ((4294967246 + 130) % ULONG_MOD) > EVENT_TIMESPAN ↔ 125 < 130)) :=
  ⟨by decide, by decide,
    elapsed_wraparound ⟨false, 4294967246, MSG_EVENT_PROBE⟩ 130
      (by decide) (by decide)⟩

/-- C5 counterexample: the startup state has `previousEvent = PROBE`,
which under the spec's own phase definitions ("PROBE_PENDING: last event
was HEARTBEAT") is not PROBE_PENDING — the initial phase is the one
whose next due event is a HEARTBEAT. -/
theorem initial_phase_counterexample :
    initState.previousTimestamp = 0 ∧
    initState.isMeatbagTranscribing = false ∧
    initState.previousEvent = MSG_EVENT_PROBE ∧
    specPhaseOfPreviousEvent initState.previousEvent ≠ Phase.PROBE_PENDING := by
  decide

/-- C5 (amended): at startup the state is exactly last timestamp 0,
transcription flag false, and `previousEvent = PROBE` — i.e. phase
HEARTBEAT_PENDING in the spec's vocabulary ("last event was PROBE, next
due is HEARTBEAT"); accordingly the first scheduler emission from
startup is a HEARTBEAT. -/
theorem initial_state_values :
    initState.previousTimestamp = 0 ∧
    initState.isMeatbagTranscribing = false ∧
    initState.previousEvent = MSG_EVENT_PROBE ∧
    specPhaseOfPreviousEvent initState.previousEvent = Phase.HEARTBEAT_PENDING ∧
    (schedStep initState 130 false).2 = [MSG_EVENT_HEARTBEAT] := by
  decide

/-- C3 counterexample: on the spec's scenario (clocks [0,130,260,390],
activation pin HIGH, signal pin 1) the emitted wire is [3,4,1,4] — the
probe at t=260 puts a single byte "1" on the wire, not the two bytes
"5","1" the claim asserts. -/
theorem scenario_counterexample :
    (applyPolls initState scenarioHigh).2 = [3, 4, 1, 4] ∧
    (applyPolls initState scenarioHigh).2 ≠
      [MSG_MEATBAG_ACTIVATE, MSG_EVENT_HEARTBEAT, MSG_EVENT_PROBE, 1,
        MSG_EVENT_HEARTBEAT] := by
  decide

/-- C3 (amended): on clocks [0,130,260,390] with activation pin HIGH and
signal pin 1 throughout, the run emits exactly ACTIVATE (3) at the first
poll, HEARTBEAT (4) at t=130, the probe bit "1" (one byte, no leading 5)
at t=260, and HEARTBEAT again at t=390, ending with the flag set and
phase marker HEARTBEAT. -/
theorem scenario_trace :
    (applyPolls initState (scenarioHigh.take 1)).2 = [MSG_MEATBAG_ACTIVATE] ∧
    (applyPolls initState (scenarioHigh.take 2)).2 =
      [MSG_MEATBAG_ACTIVATE, MSG_EVENT_HEARTBEAT] ∧
    (applyPolls initState (scenarioHigh.take 3)).2 =
      [MSG_MEATBAG_ACTIVATE, MSG_EVENT_HEARTBEAT, 1] ∧
    (applyPolls initState scenarioHigh).2 =
      [MSG_MEATBAG_ACTIVATE, MSG_EVENT_HEARTBEAT, 1, MSG_EVENT_HEARTBEAT] ∧
    (applyPolls initState scenarioHigh).1 =
      ⟨true, 390, MSG_EVENT_HEARTBEAT⟩ := by
  decide

/-- C1 counterexample: a reachable poll on which the probe branch fires
(elapsed 130 > 125, phase marker HEARTBEAT, flag set) writes the single
byte "1" to the serial sink — not the two-character sequence "5","1". -/
theorem probe_wire_counterexample :
    (timeElapsed (applyPolls initState (scenarioHigh.take 2)).1 260 >
        EVENT_TIMESPAN ∧
      (applyPolls initState (scenarioHigh.take 2)).1.previousEvent =
        MSG_EVENT_HEARTBEAT ∧
      (applyPolls initState (scenarioHigh.take 2)).1.isMeatbagTranscribing =
        true) ∧
    (loopPoll (applyPolls initState (scenarioHigh.take 2)).1 260 true true).2 =
      [1] ∧
    [1] ≠ [MSG_EVENT_PROBE, 1] := by
  decide

/-- C1 (amended): whenever the probe branch fires (elapsed time exceeds
`EVENT_TIMESPAN`, phase marker is HEARTBEAT, transcription flag is
true), the bytes written for that probe are exactly one character — the
sampled input-pin value 0 or 1 — and the probe message code 5 is never
written to the wire. -/
theorem probe_emits_bit_only (s : SketchState) (c : Nat) (pin : Bool)
    (h1 : timeElapsed s c > EVENT_TIMESPAN)
    (h2 : s.previousEvent = MSG_EVENT_HEARTBEAT)
    (h3 : s.isMeatbagTranscribing = true) :
    (schedStep s c pin).2 = [digitalVal pin] ∧
    digitalVal pin ≤ 1 ∧
    MSG_EVENT_PROBE ∉ (schedStep s c pin).2 := by
  have hne : ¬ (timeElapsed s c > EVENT_TIMESPAN ∧
      s.previousEvent = MSG_EVENT_PROBE) := by
    intro hcon
    rw [h2] at hcon
    exact absurd hcon.2 (by decide)
  have heq : schedStep s c pin =
      ({ s with previousTimestamp := c % ULONG_MOD
                previousEvent := MSG_EVENT_PROBE },
       [digitalVal pin]) := by
    unfold schedStep
    rw [if_neg hne, if_pos ⟨h1, h2, h3, h1⟩]
  rw [heq]
  refine ⟨rfl, ?_, ?_⟩
  · cases pin <;> decide
  · show MSG_EVENT_PROBE ∉ [digitalVal pin]
    cases pin <;> decide

/-- Witness for C1 (amended) at a concrete firing poll. -/
theorem probe_emits_bit_only_witness :
    timeElapsed ⟨true, 130, MSG_EVENT_HEARTBEAT⟩ 260 > EVENT_TIMESPAN ∧
    ((schedStep ⟨true, 130, MSG_EVENT_HEARTBEAT⟩ 260 true).2 =
        [digitalVal true] ∧
      digitalVal true ≤ 1 ∧
      MSG_EVENT_PROBE ∉ (schedStep ⟨true, 130, MSG_EVENT_HEARTBEAT⟩ 260 true).2) :=
  ⟨by decide,
    probe_emits_bit_only ⟨true, 130, MSG_EVENT_HEARTBEAT⟩ 260 true
      (by decide) rfl rfl⟩

/-- C6 counterexample: the wire emitted by a real run containing a probe
cannot be split by the documented grammar at all — the stream [3,4,1,4]
has a bare probe bit where the grammar requires a 5-prefixed pair, so
the documented decoder fails on it. -/
theorem wire_grammar_counterexample :
    (applyPolls initState scenarioHigh).2 = [3, 4, 1, 4] ∧
    specDecodeWire (applyPolls initState scenarioHigh).2 = none := by
  decide

/-- C2 counterexample: with the activation pin LOW on every poll (flag
false throughout), the run over clocks [0,130,260,390] emits exactly one
heartbeat in total, and the fourth poll — at which 260 ms have elapsed
since the last transition, well over `EVENT_TIMESPAN` — emits nothing:
heartbeats do not continue while the transcription flag is false. -/
theorem heartbeat_stall_counterexample :
    (applyPolls initState scenarioLow).1.isMeatbagTranscribing = false ∧
    (applyPolls initState scenarioLow).2 = [MSG_EVENT_HEARTBEAT] ∧
    timeElapsed (applyPolls initState (scenarioLow.take 3)).1 390 >
      EVENT_TIMESPAN ∧
    (loopPoll (applyPolls initState (scenarioLow.take 3)).1 390 false false).2 =
      [] := by
  decide

lemma schedStep_noFire_of_stuck (s : SketchState) (c : Nat) (pin : Bool)
    (he : s.previousEvent ≠ MSG_EVENT_PROBE)
    (hf : s.isMeatbagTranscribing = false) :
    schedStep s c pin = (s, []) := by
  rcases schedStep_spec s c pin with ⟨_, hpe, _⟩ | ⟨_, _, hfl, _⟩ | ⟨_, heq⟩
  · exact absurd hpe he
  · rw [hf] at hfl
    exact absurd hfl (by decide)
  · exact heq

lemma activationStep_noFire_low (s : SketchState)
    (hf : s.isMeatbagTranscribing = false) :
    activationStep s false = (s, []) := by
  rcases activationStep_spec s false with ⟨hfl, _, _⟩ | ⟨_, ha, _⟩ | ⟨_, heq⟩
  · rw [hf] at hfl
    exact absurd hfl (by decide)
  · exact absurd ha (by decide)
  · exact heq

lemma applyPolls_stuck :
    ∀ (l : List PollInput) (s : SketchState),
      s.isMeatbagTranscribing = false →
      s.previousEvent ≠ MSG_EVENT_PROBE →
      (∀ i ∈ l, i.pinActivate = false) →
      applyPolls s l = (s, []) := by
  intro l
  induction l with
  | nil => intro s _ _ _; rfl
  | cons i is ih =>
    intro s hf he ha
    have hai : i.pinActivate = false := ha i (by simp)
    rw [applyPolls_cons, loopPoll_eq, schedStep_noFire_of_stuck s i.clock i.pinIn he hf]
    dsimp only
    rw [hai, activationStep_noFire_low s hf]
    dsimp only
    rw [ih s hf he (fun j hj => ha j (List.mem_cons_of_mem i hj))]
    rfl

/-- C2 (amended): when the transcription flag is false and the
activation pin stays LOW throughout, zero PROBE messages are emitted —
but heartbeats do not continue either: the whole run emits at most one
heartbeat (the phase marker sticks at HEARTBEAT after it, so the
scheduler goes silent until transcription is activated).  In
particular, after a HIGH→LOW deactivation probes cease and at most one
further heartbeat is ever emitted while the pin stays LOW. -/
theorem no_probe_when_inactive :
    ∀ (l : List PollInput) (s : SketchState),
      s.isMeatbagTranscribing = false →
      (∀ i ∈ l, i.pinActivate = false) →
      List.Sublist (applyPolls s l).2 [MSG_EVENT_HEARTBEAT] := by
  intro l
  induction l with
  | nil => intro s _ _; exact List.nil_sublist _
  | cons i is ih =>
    intro s hf ha
    have hai : i.pinActivate = false := ha i (by simp)
    have hais : ∀ j ∈ is, j.pinActivate = false :=
      fun j hj => ha j (List.mem_cons_of_mem i hj)
    rcases schedStep_spec s i.clock i.pinIn with ⟨_, _, heq⟩ | ⟨_, _, hfl, _⟩ | ⟨_, heq⟩
    · rw [applyPolls_cons, loopPoll_eq, heq]
      dsimp only
      rw [hai,
        activationStep_noFire_low
          { isMeatbagTranscribing := s.isMeatbagTranscribing
            previousTimestamp := i.clock % ULONG_MOD
            previousEvent := MSG_EVENT_HEARTBEAT } hf]
      dsimp only
      rw [applyPolls_stuck is
        { isMeatbagTranscribing := s.isMeatbagTranscribing
          previousTimestamp := i.clock % ULONG_MOD
          previousEvent := MSG_EVENT_HEARTBEAT } hf (by dsimp only; decide) hais]
      exact List.Sublist.refl _
    · rw [hf] at hfl
      exact absurd hfl (by decide)
    · rw [applyPolls_cons, loopPoll_eq, heq]
      dsimp only
      rw [hai, activationStep_noFire_low s hf]
      dsimp only
      rw [List.nil_append, List.nil_append]
      exact ih s hf hais

/-- Witness for C2 (amended) on the all-LOW scenario run. -/
theorem no_probe_when_inactive_witness :
    initState.isMeatbagTranscribing = false ∧
    (∀ i ∈ scenarioLow, i.pinActivate = false) ∧
    List.Sublist (applyPolls initState scenarioLow).2 [MSG_EVENT_HEARTBEAT] :=
  ⟨rfl, by decide, no_probe_when_inactive scenarioLow initState rfl (by decide)⟩

lemma schedAlt_heartbeat_cons (r : List Nat)
    (h : schedAlt MSG_EVENT_HEARTBEAT r = true) :
    schedAlt MSG_EVENT_PROBE (MSG_EVENT_HEARTBEAT :: r) = true := h

lemma schedAlt_probe_cons (b : Bool) (r : List Nat)
    (h : schedAlt MSG_EVENT_PROBE r = true) :
    schedAlt MSG_EVENT_HEARTBEAT (digitalVal b :: r) = true := by
  cases b
  · exact h
  · exact h

lemma filter_sched_bit (b : Bool) :
    List.filter isSchedDigit [digitalVal b] = [digitalVal b] := by
  cases b <;> rfl

lemma schedAlt_filter_run :
    ∀ (l : List PollInput) (s : SketchState),
      (s.previousEvent = MSG_EVENT_HEARTBEAT ∨
        s.previousEvent = MSG_EVENT_PROBE) →
      schedAlt s.previousEvent
        (((applyPolls s l).2).filter isSchedDigit) = true := by
  intro l
  induction l with
  | nil => intro s _; rfl
  | cons i is ih =>
    intro s hev
    rw [applyPolls_cons, loopPoll_eq]
    dsimp only
    rw [List.filter_append, List.filter_append, activationStep_schedFilter,
      List.append_nil]
    rcases schedStep_spec s i.clock i.pinIn with
      ⟨h1, hpe, heq⟩ | ⟨h1, hpe, hfl, heq⟩ | ⟨_, heq⟩
    · rw [heq]
      dsimp only
      rw [hpe]
      have hev' : (activationStep
          { isMeatbagTranscribing := s.isMeatbagTranscribing
            previousTimestamp := i.clock % ULONG_MOD
            previousEvent := MSG_EVENT_HEARTBEAT } i.pinActivate).1.previousEvent =
          MSG_EVENT_HEARTBEAT := by
        rw [activationStep_ev]
      have hrest := ih _ (Or.inl hev')
      rw [hev'] at hrest
      exact schedAlt_heartbeat_cons _ hrest
    · rw [heq]
      dsimp only
      rw [hpe, filter_sched_bit i.pinIn]
      have hev' : (activationStep
          { isMeatbagTranscribing := s.isMeatbagTranscribing
            previousTimestamp := i.clock % ULONG_MOD
            previousEvent := MSG_EVENT_PROBE } i.pinActivate).1.previousEvent =
          MSG_EVENT_PROBE := by
        rw [activationStep_ev]
      have hrest := ih _ (Or.inr hev')
      rw [hev'] at hrest
      exact schedAlt_probe_cons i.pinIn _ hrest
    · rw [heq]
      dsimp only
      rw [List.filter_nil, List.nil_append]
      have hev' : (activationStep s i.pinActivate).1.previousEvent =
          s.previousEvent := activationStep_ev s i.pinActivate
      have hrest := ih (activationStep s i.pinActivate).1 (by rw [hev']; exact hev)
      rw [hev'] at hrest
      exact hrest

/-- C4: for every poll sequence with monotonically increasing clock
readings, the scheduler's emissions strictly alternate between
heartbeats and probes: filtering the wire down to the scheduler digits
(heartbeat 4 and probe bits 0/1) yields a sequence in which, starting
from the initial PROBE marker, a heartbeat is always followed by a probe
bit and a probe bit by a heartbeat — never two heartbeats or two probes
back-to-back. -/
theorem sched_alternation (l : List PollInput)
    (hmono : strictIncr (l.map PollInput.clock) = true) :
    schedAlt MSG_EVENT_PROBE
      (((applyPolls initState l).2).filter isSchedDigit) = true :=
  schedAlt_filter_run l initState (Or.inr rfl)

/-- Witness for C4 on the concrete scenario run. -/
theorem sched_alternation_witness :
    strictIncr (scenarioHigh.map PollInput.clock) = true ∧
    schedAlt MSG_EVENT_PROBE
      (((applyPolls initState scenarioHigh).2).filter isSchedDigit) = true :=
  ⟨by decide, sched_alternation scenarioHigh (by decide)⟩

lemma actAlt_lastAct_run :
    ∀ (l : List PollInput) (s : SketchState),
      actAlt s.isMeatbagTranscribing
          (((applyPolls s l).2).filter isActDigit) = true ∧
      (applyPolls s l).1.isMeatbagTranscribing =
        lastAct s.isMeatbagTranscribing
          (((applyPolls s l).2).filter isActDigit) := by
  intro l
  induction l with
  | nil =>
    intro s
    cases hf : s.isMeatbagTranscribing <;> exact ⟨rfl, hf⟩
  | cons i is ih =>
    intro s
    have hflag := schedStep_flag s i.clock i.pinIn
    rw [applyPolls_cons, loopPoll_eq]
    dsimp only
    rw [List.filter_append, List.filter_append, schedStep_actFilter,
      List.nil_append]
    rcases activationStep_spec (schedStep s i.clock i.pinIn).1 i.pinActivate with
      ⟨hfl, hpa, heq⟩ | ⟨hfl, hpa, heq⟩ | ⟨hfl, heq⟩
    · have hsf : s.isMeatbagTranscribing = true := by
        rw [← hflag]; exact hfl
      rw [heq]
      dsimp only
      rw [hsf]
      have h2 := ih
        { (schedStep s i.clock i.pinIn).1 with isMeatbagTranscribing := false }
      exact ⟨h2.1, h2.2⟩
    · have hsf : s.isMeatbagTranscribing = false := by
        rw [← hflag]; exact hfl
      rw [heq]
      dsimp only
      rw [hsf]
      have h2 := ih
        { (schedStep s i.clock i.pinIn).1 with isMeatbagTranscribing := true }
      exact ⟨h2.1, h2.2⟩
    · rw [heq]
      dsimp only
      rw [List.filter_nil, List.nil_append, ← hflag]
      exact ih (schedStep s i.clock i.pinIn).1

/-- C10: for every poll sequence from startup, the ACTIVATE (3) and
DEACTIVATE (2) emissions strictly alternate and the first one, if any,
is ACTIVATE (so DEACTIVATE can never be the first activation event on
the wire); moreover after every run the transcription flag is true
exactly when the most recent activation-type digit emitted was ACTIVATE
(and false when none has been emitted or the last was DEACTIVATE). -/
theorem activation_alternation (l : List PollInput) :
    actAlt false (((applyPolls initState l).2).filter isActDigit) = true ∧
    (applyPolls initState l).1.isMeatbagTranscribing =
      lastAct false (((applyPolls initState l).2).filter isActDigit) :=
  actAlt_lastAct_run l initState

/-- C7: on every poll the activation edge detector behaves exactly as
specified: with the flag up and the pin LOW it clears the flag and emits
DEACTIVATE (2); with the flag down and the pin HIGH it sets the flag and
emits ACTIVATE (3); in every other combination (the flag agreeing with
the pin level) the flag is unchanged and no activation digit is emitted
— so sustained levels can never produce duplicate firings, and each
firing corresponds to exactly one observed edge. -/
theorem activation_edge_detector (s : SketchState) (c : Nat) (pin pact : Bool) :
    (s.isMeatbagTranscribing = true → pact = false →
      (loopPoll s c pin pact).1.isMeatbagTranscribing = false ∧
      ((loopPoll s c pin pact).2).filter isActDigit = [MSG_MEATBAG_DEACTIVATE]) ∧
    (s.isMeatbagTranscribing = false → pact = true →
      (loopPoll s c pin pact).1.isMeatbagTranscribing = true ∧
      ((loopPoll s c pin pact).2).filter isActDigit = [MSG_MEATBAG_ACTIVATE]) ∧
    (s.isMeatbagTranscribing = pact →
      (loopPoll s c pin pact).1.isMeatbagTranscribing = s.isMeatbagTranscribing ∧
      ((loopPoll s c pin pact).2).filter isActDigit = []) := by
  have hflag := schedStep_flag s c pin
  rw [loopPoll_eq]
  dsimp only
  rw [List.filter_append, schedStep_actFilter, List.nil_append]
  rcases activationStep_spec (schedStep s c pin).1 pact with
    ⟨hfl, hpa, heq⟩ | ⟨hfl, hpa, heq⟩ | ⟨hfl, heq⟩
  · rw [heq]
    dsimp only
    refine ⟨fun _ _ => ⟨rfl, rfl⟩, ?_, ?_⟩
    · intro hsf _
      rw [← hflag, hfl] at hsf
      exact absurd hsf (by decide)
    · intro hspa
      rw [← hflag, hfl, hpa] at hspa
      exact absurd hspa (by decide)
  · rw [heq]
    dsimp only
    refine ⟨?_, fun _ _ => ⟨rfl, rfl⟩, ?_⟩
    · intro hsf _
      rw [← hflag, hfl] at hsf
      exact absurd hsf (by decide)
    · intro hspa
      rw [← hflag, hfl, hpa] at hspa
      exact absurd hspa (by decide)
  · rw [heq]
    dsimp only
    refine ⟨?_, ?_, fun _ => ⟨by rw [hflag], rfl⟩⟩
    · intro hsf hpaf
      rw [← hflag, hfl, hpaf] at hsf
      exact absurd hsf (by decide)
    · intro hsf hpat
      rw [← hflag, hfl, hpat] at hsf
      exact absurd hsf (by decide)

/-- Witness for C7: a LOW→HIGH edge observed from startup sets the flag
and emits exactly one ACTIVATE digit. -/
theorem activation_edge_detector_witness :
    (loopPoll initState 0 false true).1.isMeatbagTranscribing = true ∧
    ((loopPoll initState 0 false true).2).filter isActDigit =
      [MSG_MEATBAG_ACTIVATE] :=
  (activation_edge_detector initState 0 false true).2.1 rfl rfl

lemma serializeEvent_le (e : Event) : ∀ d ∈ serializeEvent e, d ≤ 4 := by
  cases e with
  | heartbeat => decide
  | probe b => cases b <;> decide
  | activate => decide
  | deactivate => decide

lemma wireOf_append (a b : List Event) :
    wireOf (a ++ b) = wireOf a ++ wireOf b := by
  induction a with
  | nil => rfl
  | cons e r ih =>
    rw [List.cons_append]
    rw [show wireOf (e :: (r ++ b)) = serializeEvent e ++ wireOf (r ++ b) from rfl]
    rw [show wireOf (e :: r) = serializeEvent e ++ wireOf r from rfl]
    rw [ih, List.append_assoc]

lemma wireOf_le : ∀ (es : List Event), ∀ d ∈ wireOf es, d ≤ 4 := by
  intro es
  induction es with
  | nil => intro d hd; cases hd
  | cons e r ih =>
    intro d hd
    rw [show wireOf (e :: r) = serializeEvent e ++ wireOf r from rfl] at hd
    rcases List.mem_append.mp hd with h | h
    · exact serializeEvent_le e d h
    · exact ih d h

lemma decodeWire_cons_event (e : Event) (w : List Nat) (es : List Event)
    (h : decodeWire w = some es) :
    decodeWire (serializeEvent e ++ w) = some (e :: es) := by
  cases e with
  | heartbeat => simp [serializeEvent, decodeWire, h]
  | probe b => cases b <;> simp [serializeEvent, decodeWire, digitalVal, h]
  | activate => simp [serializeEvent, decodeWire, h]
  | deactivate => simp [serializeEvent, decodeWire, h]

lemma decodeWire_wireOf_append (pre : List Event) (w : List Nat)
    (es : List Event) (h : decodeWire w = some es) :
    decodeWire (wireOf pre ++ w) = some (pre ++ es) := by
  induction pre with
  | nil => simpa using h
  | cons e r ih =>
    rw [show wireOf (e :: r) = serializeEvent e ++ wireOf r from rfl,
      List.append_assoc]
    exact decodeWire_cons_event e _ _ ih

lemma roundtrip_run :
    ∀ (l : List PollInput) (s : SketchState),
      ∃ es, decodeWire (applyPolls s l).2 = some es ∧
        wireOf es = (applyPolls s l).2 := by
  intro l
  induction l with
  | nil => intro s; exact ⟨[], rfl, rfl⟩
  | cons i is ih =>
    intro s
    obtain ⟨pre1, hpre1⟩ :
        ∃ pre1, (schedStep s i.clock i.pinIn).2 = wireOf pre1 := by
      rcases schedStep_spec s i.clock i.pinIn with
        ⟨_, _, heq⟩ | ⟨_, _, _, heq⟩ | ⟨_, heq⟩
      · exact ⟨[Event.heartbeat], by rw [heq]; rfl⟩
      · exact ⟨[Event.probe i.pinIn], by rw [heq]; rfl⟩
      · exact ⟨[], by rw [heq]; rfl⟩
    obtain ⟨pre2, hpre2⟩ :
        ∃ pre2, (activationStep (schedStep s i.clock i.pinIn).1
          i.pinActivate).2 = wireOf pre2 := by
      rcases activationStep_spec (schedStep s i.clock i.pinIn).1 i.pinActivate
        with ⟨_, _, heq⟩ | ⟨_, _, heq⟩ | ⟨_, heq⟩
      · exact ⟨[Event.deactivate], by rw [heq]; rfl⟩
      · exact ⟨[Event.activate], by rw [heq]; rfl⟩
      · exact ⟨[], by rw [heq]; rfl⟩
    obtain ⟨es, hdec, hw⟩ := ih (activationStep (schedStep s i.clock i.pinIn).1
      i.pinActivate).1
    refine ⟨pre1 ++ (pre2 ++ es), ?_, ?_⟩
    · rw [applyPolls_cons, loopPoll_eq]
      dsimp only
      rw [hpre1, hpre2, List.append_assoc]
      exact decodeWire_wireOf_append _ _ _ (decodeWire_wireOf_append _ _ _ hdec)
    · rw [applyPolls_cons, loopPoll_eq]
      dsimp only
      rw [hpre1, hpre2, wireOf_append, wireOf_append, hw, List.append_assoc]

/-- C6 (amended): every byte the sketch emits is a digit in
{0,1,2,3,4} — the probe code 5 never appears on the wire — and the
stream is still uniquely decodable, but by the one-digit-per-event
grammar the sketch actually uses (4 heartbeat, 0/1 probe bit, 3
activate, 2 deactivate), not by the documented "5"+bit grammar: the
decoder recovers an event sequence whose re-serialization is exactly the
emitted stream. -/
theorem wire_roundtrip (l : List PollInput) :
    ∃ es, decodeWire (applyPolls initState l).2 = some es ∧
      wireOf es = (applyPolls initState l).2 ∧
      ∀ d ∈ (applyPolls initState l).2, d ≤ 4 := by
  obtain ⟨es, hdec, hw⟩ := roundtrip_run l initState
  refine ⟨es, hdec, hw, ?_⟩
  intro d hd
  rw [← hw] at hd
  exact wireOf_le es d hd

end ArtisinalRs232
